import Mathlib

/-!
Verification development for the sitemap keyword query-dispatch pipeline.

Shallow embedding of the query-dispatch core:
- `src/src/api/seo_api_manager.py` (endpoint pool, dispatch, response parsing)
- `src/src/utils/fault_tolerant_processor.py` (retry / circuit breaker / stats)
- `src/src/api/enhanced_seo_api_manager.py` (resilient pipeline orchestrator)

Machine floats holding whole-second timestamps are modelled as integers,
fractional delay arithmetic as rationals; Python dicts keyed by keyword are
modelled as association lists in insertion order; exceptions are modelled
with `Except String`.
-/

namespace Sitemap

/-- JSON-like values: the shape of parsed API response bodies. -/
inductive JValue where
  | null
  | bool (b : Bool)
  | num (n : Int)
  | str (s : String)
  | arr (items : List JValue)
  | obj (fields : List (String × JValue))

/-- Python `d[key]` / `key in d` lookup on an object's field list. -/
def lookupField (fields : List (String × JValue)) (key : String) : Option JValue :=
  match fields with
  | [] => none
  | (k, v) :: rest => if k = key then some v else lookupField rest key

/-- A per-keyword result map: `Dict[str, Optional[dict]]` in the source,
kept in Python dict insertion order. -/
abbrev ResultsMap := List (String × Option JValue)

/-- `{keyword: None for keyword in keywords}`: Python dict comprehension,
deduplicating keywords while keeping first-insertion order. -/
def initResults (keywords : List String) : ResultsMap :=
  keywords.foldl (fun m k => if m.any (fun p => p.1 == k) then m else m ++ [(k, none)]) []

/-- `results[k] = v` on a dict already containing key `k` (all requested
keywords are pre-initialised in `_parse_response`). -/
def setKey (m : ResultsMap) (k : String) (v : Option JValue) : ResultsMap :=
  m.map (fun p => if p.1 == k then (k, v) else p)

/-- `results.update(upd)`: overwrite existing keys in place, append new keys. -/
def updateMap (m : ResultsMap) (upd : ResultsMap) : ResultsMap :=
  upd.foldl
    (fun acc kv =>
      if acc.any (fun p => p.1 == kv.1) then
        acc.map (fun p => if p.1 == kv.1 then kv else p)
      else acc ++ [kv])
    m

/-- `SEOAPIManager._is_valid_keyword_data`: valid iff a non-empty dict. -/
def is_valid_keyword_data (data : JValue) : Bool :=
  match data with
  | .obj fields => fields.length > 0
  | _ => false

/-- The schema test of `_parse_response`'s main branch:
`isinstance(data, dict) and 'data' in data and isinstance(data['data'], list)`. -/
def matches_expected_schema (data : JValue) : Bool :=
  match data with
  | .obj fields =>
    match lookupField fields "data" with
    | some (.arr _) => true
    | _ => false
  | _ => false

/-- One step of `_parse_response`'s item loop: a `data` entry updates the
result map only when it is a dict with `keyword` and `metrics` keys, its
keyword was requested, and its metrics pass `_is_valid_keyword_data`. -/
def parseItem (keywords : List String) (acc : ResultsMap) (item : JValue) : ResultsMap :=
  match item with
  | .obj ifields =>
    match lookupField ifields "keyword", lookupField ifields "metrics" with
    | some (.str kw), some metrics =>
      if keywords.contains kw then
        if is_valid_keyword_data metrics then setKey acc kw (some metrics) else acc
      else acc
    | _, _ => acc
  | _ => acc

/-- Claim-side predicate derived from `parseItem`: the `data` entry `item`
would set requested keyword `k` in `_parse_response` (it names `k`, `k` was
requested, and its metrics pass `_is_valid_keyword_data`). Its negation over
all entries captures a keyword "absent from `data` or present only with
invalid metrics". -/
def itemSetsKeyword (keywords : List String) (item : JValue) (k : String) : Bool :=
  match item with
  | .obj ifields =>
    match lookupField ifields "keyword", lookupField ifields "metrics" with
    | some (.str kw), some metrics =>
      kw == k && keywords.contains kw && is_valid_keyword_data metrics
    | _, _ => false
  | _ => false

/-- Claim-side helper: the `data` entries of a response body (empty when the
body does not match the expected schema). -/
def dataItems (body : JValue) : List JValue :=
  match body with
  | .obj fields =>
    match lookupField fields "data" with
    | some (.arr items) => items
    | _ => []
  | _ => []

/-- `SEOAPIManager._parse_response`. The `total_results == 0` branch and the
missing-keyword check only log, so they do not appear: every requested keyword
starts at `None` and only valid `data` entries overwrite it. A body that fails
the schema test maps every keyword to `None` (no exception is raised). -/
def parse_response (data : JValue) (keywords : List String) : ResultsMap :=
  match data with
  | .obj fields =>
    match lookupField fields "data" with
    | some (.arr items) => items.foldl (parseItem keywords) (initResults keywords)
    | _ => initResults keywords
  | _ => initResults keywords

/-- The HTTP outcome observed by `_send_request_to_endpoint` for one request. -/
inductive HttpResponse where
  | status (code : Nat) (body : JValue) (text : String)
  | timeoutErr
  | clientError (msg : String)

/-- `SEOAPIManager._send_request_to_endpoint`: empty keyword lists short-circuit
to `{}`; a 200 response is parsed (never raising); any other status, a timeout
or a client error raises (modelled as `Except.error`). -/
def send_request_to_endpoint (keywords : List String) (resp : HttpResponse) :
    Except String ResultsMap :=
  if keywords.isEmpty then .ok [] else
  match resp with
  | .status code body text =>
    if code = 200 then .ok (parse_response body keywords)
    else if code ≥ 500 then .error "API返回错误状态码 (服务器内部错误)"
    else .error ("API返回错误状态码 " ++ text)
  | .timeoutErr => .error "请求超时"
  | .clientError msg => .error ("网络请求错误 " ++ msg)

/-- Per-endpoint health record: an entry of `SEOAPIManager.endpoint_health`. -/
structure EndpointHealth where
  healthy : Bool
  failures : Nat
  last_check : Int
  requests : Nat
  deriving DecidableEq

/-- Endpoint-pool state of `SEOAPIManager`: per-endpoint health records plus
the round-robin cursor `current_endpoint_index`. (`enable_load_balancing` is
constantly `True` in the source, so it is not a field.) -/
structure PoolState where
  endpoint_health : List EndpointHealth
  current_endpoint_index : Nat
  deriving DecidableEq

/-- `healthy` flag of endpoint `i` (`false` out of range). -/
def healthyAt (health : List EndpointHealth) (i : Nat) : Bool :=
  ((health.get? i).map (fun e => e.healthy)).getD false

/-- `failures` count of endpoint `i` (`0` out of range). -/
def failuresAt (health : List EndpointHealth) (i : Nat) : Nat :=
  ((health.get? i).map (fun e => e.failures)).getD 0

/-- `min(self.endpoint_health.keys(), key=lambda x: ...['failures'])`:
Python `min` keeps the first key attaining the minimum, i.e. the least index
with minimal `failures`. -/
def argminFailures (health : List EndpointHealth) : Nat :=
  (List.range health.length).foldl
    (fun best i => if failuresAt health i < failuresAt health best then i else best) 0

/-- The `while attempts < len(api_urls)` loop of `_get_next_endpoint`:
examine the endpoint under the cursor, advance the cursor, stop at the first
healthy endpoint. `.inl (index, cursor)` on success, `.inr cursor` when a full
rotation found no healthy endpoint. -/
def getNextLoop (health : List EndpointHealth) : Nat → Nat → Sum (Nat × Nat) Nat
  | 0, c => .inr c
  | fuel + 1, c =>
    let c1 := (c + 1) % health.length
    if healthyAt health c then .inl (c, c1) else getNextLoop health fuel c1

/-- `SEOAPIManager._get_next_endpoint`: round-robin among healthy endpoints;
after a fruitless full rotation, fall back to the endpoint with the fewest
failures. No cooldown is consulted and no health flag is mutated. -/
def get_next_endpoint (st : PoolState) : Nat × PoolState :=
  match getNextLoop st.endpoint_health st.endpoint_health.length st.current_endpoint_index with
  | .inl (i, c) => (i, { st with current_endpoint_index := c })
  | .inr c => (argminFailures st.endpoint_health, { st with current_endpoint_index := c })

/-- `SEOAPIManager._mark_endpoint_failure` (`max_failures` is the literal 3 in
the source): increment `failures`; on reaching the threshold mark the endpoint
unhealthy and stamp `last_check`. -/
def mark_endpoint_failure (st : PoolState) (i : Nat) (now : Int) : PoolState :=
  match st.endpoint_health.get? i with
  | none => st
  | some e =>
    let e1 := { e with failures := e.failures + 1 }
    let e2 := if e1.failures ≥ 3 then { e1 with healthy := false, last_check := now } else e1
    { st with endpoint_health := st.endpoint_health.set i e2 }

/-- The success bookkeeping of `query_keywords_streaming` (and
`query_keywords_serial`): reset `failures` to 0 and count the request. The
`healthy` flag is not written. -/
def report_success (st : PoolState) (i : Nat) : PoolState :=
  match st.endpoint_health.get? i with
  | none => st
  | some e =>
    { st with endpoint_health :=
        st.endpoint_health.set i { e with failures := 0, requests := e.requests + 1 } }

/-- `fault_tolerant_processor.BatchResult`. -/
structure BatchResult where
  batch_id : Nat
  keywords : List String
  success : Bool
  results : ResultsMap
  error : Option String := none
  retry_count : Nat := 0
  processing_time : ℚ := 0

/-- `fault_tolerant_processor.ProcessingStats` (Python ints and a float). -/
structure ProcessingStats where
  total_batches : Int := 0
  successful_batches : Int := 0
  failed_batches : Int := 0
  retried_batches : Int := 0
  total_keywords : Int := 0
  successful_keywords : Int := 0
  failed_keywords : Int := 0
  total_processing_time : ℚ := 0
  deriving DecidableEq

/-- `ProcessingStats.success_rate`. -/
def success_rate (s : ProcessingStats) : ℚ :=
  if s.total_batches = 0 then 0 else (s.successful_batches : ℚ) / (s.total_batches : ℚ)

/-- `FaultTolerantProcessor`: configuration plus mutable state. Defaults are
the constructor defaults; `EnhancedSEOAPIManager` instantiates it with
`max_retries = 2`, `retry_delay_base = 5`, `failure_threshold = 3/10`,
`circuit_breaker_threshold = 5`. -/
structure FaultTolerantProcessor where
  max_retries : Nat := 3
  retry_delay_base : ℚ := 1
  retry_delay_max : ℚ := 60
  failure_threshold : ℚ := 1/2
  circuit_breaker_threshold : Nat := 10
  enable_exponential_backoff : Bool := true
  stats : ProcessingStats := {}
  failed_batches : List BatchResult := []
  consecutive_failures : Nat := 0
  circuit_breaker_open : Bool := false
  circuit_breaker_open_time : Int := 0
  circuit_breaker_timeout : Int := 300

/-- `_calculate_retry_delay` with the random draw `r = random.random()`
(`0 ≤ r < 1`) passed explicitly: exponential backoff capped at
`retry_delay_max`, then jitter `delay * 0.2 * (r - 0.5)`, floored at `0.1`. -/
def calculate_retry_delay (p : FaultTolerantProcessor) (retry_count : Nat) (r : ℚ) : ℚ :=
  if !p.enable_exponential_backoff then p.retry_delay_base
  else
    let delay := min (p.retry_delay_base * 2 ^ retry_count) p.retry_delay_max
    let jitter := delay * (1/5) * (r - 1/2)
    max (1/10) (delay + jitter)

/-- `_should_open_circuit_breaker`. -/
def should_open_circuit_breaker (p : FaultTolerantProcessor) : Bool :=
  p.consecutive_failures ≥ p.circuit_breaker_threshold

/-- `_should_close_circuit_breaker` at wall-clock time `now`. -/
def should_close_circuit_breaker (p : FaultTolerantProcessor) (now : Int) : Bool :=
  p.circuit_breaker_open && decide (now - p.circuit_breaker_open_time > p.circuit_breaker_timeout)

/-- `_update_circuit_breaker`; `now` is the `time.time()` read when the
breaker opens. Note the open timestamp is written only when the breaker was
not already open. -/
def update_circuit_breaker (p : FaultTolerantProcessor) (success : Bool) (now : Int) :
    FaultTolerantProcessor :=
  if success then
    { p with consecutive_failures := 0, circuit_breaker_open := false }
  else
    let p1 := { p with consecutive_failures := p.consecutive_failures + 1 }
    if !p1.circuit_breaker_open && should_open_circuit_breaker p1 then
      { p1 with circuit_breaker_open := true, circuit_breaker_open_time := now }
    else p1

/-- The `for retry_count in range(max_retries + 1)` loop of
`process_batch_with_retry`: `oracle k` is the outcome of dispatch attempt `k`
(`process_func`). Returns the successful results paired with the attempt index
on success, the number of attempts performed, and the last error seen. -/
def run_attempts (oracle : Nat → Except String ResultsMap) :
    Nat → Nat → Option String → Option (ResultsMap × Nat) × Nat × Option String
  | 0, _, lastErr => (none, 0, lastErr)
  | fuel + 1, k, lastErr =>
    match oracle k with
    | .ok res => (some (res, k), 1, lastErr)
    | .error e =>
      let (r, calls, le) := run_attempts oracle fuel (k + 1) (some e)
      (r, calls + 1, le)

/-- `FaultTolerantProcessor.process_batch_with_retry`. Retry sleeps do not
change state and are omitted; all wall-clock reads are modelled by `now`.
The third component counts the dispatch (`process_func`) calls performed. -/
def process_batch_with_retry (p : FaultTolerantProcessor) (now : Int) (batch_id : Nat)
    (keywords : List String) (oracle : Nat → Except String ResultsMap) :
    BatchResult × FaultTolerantProcessor × Nat :=
  if p.circuit_breaker_open && !should_close_circuit_breaker p now then
    ({ batch_id := batch_id, keywords := keywords, success := false, results := []
     , error := some "熔断器开启" }, p, 0)
  else
    match run_attempts oracle (p.max_retries + 1) 0 none with
    | (some (res, k), calls, _) =>
      ({ batch_id := batch_id, keywords := keywords, success := true, results := res
       , retry_count := k }, update_circuit_breaker p true now, calls)
    | (none, calls, lastErr) =>
      let p1 := update_circuit_breaker p false now
      let br : BatchResult :=
        { batch_id := batch_id, keywords := keywords, success := false
        , results := initResults keywords, error := lastErr, retry_count := p.max_retries }
      (br, { p1 with failed_batches := p1.failed_batches ++ [br] }, calls)

/-- `FaultTolerantProcessor.update_stats`. -/
def update_stats (p : FaultTolerantProcessor) (br : BatchResult) : FaultTolerantProcessor :=
  let s0 := p.stats
  let s1 := { s0 with total_batches := s0.total_batches + 1
                    , total_keywords := s0.total_keywords + br.keywords.length
                    , total_processing_time := s0.total_processing_time + br.processing_time }
  let s2 :=
    if br.success then
      let successful_count : Int := (br.results.filter (fun q => q.2.isSome)).length
      { s1 with successful_batches := s1.successful_batches + 1
              , successful_keywords := s1.successful_keywords + successful_count
              , failed_keywords :=
                  s1.failed_keywords + ((br.keywords.length : Int) - successful_count) }
    else
      { s1 with failed_batches := s1.failed_batches + 1
              , failed_keywords := s1.failed_keywords + br.keywords.length }
  let s3 := if br.retry_count > 0 then { s2 with retried_batches := s2.retried_batches + 1 } else s2
  { p with stats := s3 }

/-- `FaultTolerantProcessor.should_continue_processing`. -/
def should_continue_processing (p : FaultTolerantProcessor) : Bool :=
  if p.stats.total_batches < 10 then true
  else !decide (success_rate p.stats < 1 - p.failure_threshold)

/-- Fixed-size batching, `keywords[i : i + batch_size]` slices in order
(fuel-based recursion; `xs.length` fuel suffices for any positive size). -/
def chunksAux (n : Nat) : Nat → List String → List (List String)
  | 0, _ => []
  | _, [] => []
  | fuel + 1, x :: xs => (x :: xs).take n :: chunksAux n fuel ((x :: xs).drop n)

/-- The batches of `query_keywords_with_resilience`. -/
def chunks (n : Nat) (xs : List String) : List (List String) :=
  chunksAux n xs.length xs

/-- One pipeline iteration as recorded for analysis: the batch outcome, the
number of dispatch calls it caused, and whether its results were merged into
the returned map. -/
structure BatchRecord where
  result : BatchResult
  dispatch_calls : Nat
  merged : Bool

/-- Orchestrator state threaded through the batch loop of
`query_keywords_with_resilience`: the endpoint pool inherited from
`SEOAPIManager` plus the fault processor. -/
structure RunState where
  pool : PoolState
  fault_processor : FaultTolerantProcessor

/-- The batch loop of `EnhancedSEOAPIManager.query_keywords_with_resilience`
(the configuration with the incremental saver's timeout check exposed as
`timeoutAt`; saver/buffer callbacks only move data to sinks and never touch
`results`, so they are omitted). `oracle i k` is the outcome of dispatch
attempt `k` of batch `i`. Faithful details: the endpoint is selected before
the circuit check runs; when `should_continue_processing` turns false the
loop breaks before merging the current batch; a failed batch contributes `{}`
to `results`. -/
def runBatches (oracle : Nat → Nat → Except String ResultsMap) (timeoutAt : Nat → Bool)
    (now : Int) :
    List (List String) → Nat → RunState → ResultsMap →
      ResultsMap × RunState × List BatchRecord
  | [], _, st, results => (results, st, [])
  | batch :: rest, i, st, results =>
    if timeoutAt i then (results, st, [])
    else
      let sel := get_next_endpoint st.pool
      let (br, fp1, calls) := process_batch_with_retry st.fault_processor now i batch (oracle i)
      let fp2 := update_stats fp1 br
      let st1 : RunState := { pool := sel.2, fault_processor := fp2 }
      if !should_continue_processing fp2 then
        (results, st1, [⟨br, calls, false⟩])
      else
        let batch_results := if br.success then br.results else []
        if batch_results.isEmpty then
          let (res, st2, tr) := runBatches oracle timeoutAt now rest (i + 1) st1 results
          (res, st2, ⟨br, calls, false⟩ :: tr)
        else
          let (res, st2, tr) :=
            runBatches oracle timeoutAt now rest (i + 1) st1 (updateMap results batch_results)
          (res, st2, ⟨br, calls, true⟩ :: tr)

/-- `query_keywords_with_resilience` for keyword list `keywords`: split into
batches, run the loop from an initial state, return the merged keyword→metrics
map together with the final state and the per-batch trace. -/
def query_keywords_with_resilience (batch_size : Nat)
    (oracle : Nat → Nat → Except String ResultsMap) (timeoutAt : Nat → Bool) (now : Int)
    (st : RunState) (keywords : List String) : ResultsMap × RunState × List BatchRecord :=
  runBatches oracle timeoutAt now (chunks batch_size keywords) 0 st []

/-- An item buffered for the storage / submission sinks
(`{"keyword": ..., "seo_data": ...}`; the timestamp is omitted). -/
structure EnrichedItem where
  keyword : String
  seo_data : JValue

/-- Buffer handling after one batch of `query_keywords_streaming`: the batch's
valid results are appended to both buffers in result order; then each buffer
whose length has reached 5 is flushed once with a copy of its whole contents
and cleared. Returns the new buffers and the sink calls made. -/
def streamBufferStep (storage_buffer submission_buffer : List EnrichedItem)
    (batch_results : ResultsMap) :
    (List EnrichedItem × List EnrichedItem) ×
      (List (List EnrichedItem) × List (List EnrichedItem)) :=
  let items := batch_results.filterMap (fun q => q.2.map (fun d => EnrichedItem.mk q.1 d))
  let sb := storage_buffer ++ items
  let ub := submission_buffer ++ items
  let storage := if sb.length ≥ 5 then (([] : List EnrichedItem), [sb]) else (sb, [])
  let submission := if ub.length ≥ 5 then (([] : List EnrichedItem), [ub]) else (ub, [])
  ((storage.1, submission.1), (storage.2, submission.2))

/-- The end-of-loop flush of `query_keywords_streaming`: each still non-empty
buffer is delivered to its sink once, whole. -/
def finalFlush (buffer : List EnrichedItem) : List (List EnrichedItem) :=
  if buffer.isEmpty then [] else [buffer]

/-! ## Concrete fixtures used by counterexamples and witnesses -/

/-- The fault processor exactly as `EnhancedSEOAPIManager.__init__` builds it:
`max_retries=2, retry_delay_base=5.0, failure_threshold=0.3,
circuit_breaker_threshold=5`. -/
def enhancedFaultProcessor : FaultTolerantProcessor :=
  { max_retries := 2, retry_delay_base := 5, failure_threshold := 3/10,
    circuit_breaker_threshold := 5 }

/-- A freshly initialised endpoint-health record
(`healthy=True, failures=0, last_check=0, requests=0`). -/
def freshEndpoint : EndpointHealth := ⟨true, 0, 0, 0⟩

/-- An endpoint currently marked unhealthy after failures, with some past
traffic. -/
def downEndpoint : EndpointHealth := ⟨false, 2, 50, 7⟩

/-- A two-endpoint pool whose first endpoint is unhealthy. -/
def poolWithDown : PoolState :=
  { endpoint_health := [downEndpoint, freshEndpoint], current_endpoint_index := 0 }

/-- A fault processor whose circuit breaker opened at time 0 after 5
consecutive failures (pipeline thresholds, cooldown 300). -/
def openFaultProcessor : FaultTolerantProcessor :=
  { max_retries := 2, circuit_breaker_threshold := 5, consecutive_failures := 5
  , circuit_breaker_open := true, circuit_breaker_open_time := 0 }

/-- A half-open probe at time 301 (cooldown elapsed) whose every dispatch
attempt fails. -/
def probeFail : BatchResult × FaultTolerantProcessor × Nat :=
  process_batch_with_retry openFaultProcessor 301 1 ["a"] (fun _ => Except.error "boom")

/-- The batch following the failed probe, at time 302. -/
def probeAfterFail : BatchResult × FaultTolerantProcessor × Nat :=
  process_batch_with_retry probeFail.2.1 302 2 ["b"] (fun _ => Except.error "boom")

/-- A sample successful batch outcome with one present and one absent
keyword, obtained after one retry. -/
def sampleBatchResult : BatchResult :=
  { batch_id := 1, keywords := ["a", "b"], success := true
  , results := [("a", some (JValue.obj [("avg_monthly_searches", JValue.num 7)])), ("b", none)]
  , retry_count := 1 }

/-- Twelve successfully enriched batch results (all with valid metrics). -/
def items12 : ResultsMap :=
  (List.range 12).map (fun i => (toString i, some (JValue.obj [("v", JValue.num 1)])))

/-- The corresponding enriched items, in offer order. -/
def enriched12 : List EnrichedItem :=
  items12.filterMap (fun q => q.2.map (fun d => EnrichedItem.mk q.1 d))

/-- A pool of two healthy endpoints. -/
def poolOfTwo : PoolState :=
  { endpoint_health := [freshEndpoint, freshEndpoint], current_endpoint_index := 0 }

/-- A pool of four healthy endpoints. -/
def poolOfFour : PoolState :=
  { endpoint_health := [freshEndpoint, freshEndpoint, freshEndpoint, freshEndpoint]
  , current_endpoint_index := 0 }

/-- C2 scenario, first part: five singleton batches, every dispatch raising,
run at time 100 with the pipeline's thresholds (circuit threshold 5). -/
def runFiveFailing : ResultsMap × RunState × List BatchRecord :=
  query_keywords_with_resilience 1 (fun _ _ => Except.error "boom") (fun _ => false) 100
    { pool := poolOfFour, fault_processor := enhancedFaultProcessor } ["a", "b", "c", "d", "e"]

/-- C2 scenario, second part: the same run extended by a sixth batch, issued
while the circuit breaker is open and its cooldown has not elapsed. -/
def runSixFailing : ResultsMap × RunState × List BatchRecord :=
  query_keywords_with_resilience 1 (fun _ _ => Except.error "boom") (fun _ => false) 100
    { pool := poolOfFour, fault_processor := enhancedFaultProcessor }
    ["a", "b", "c", "d", "e", "f"]

/-- C1 scenario: a single keyword whose only batch fails every dispatch
attempt. -/
def runOneFailing : ResultsMap × RunState × List BatchRecord :=
  query_keywords_with_resilience 5 (fun _ _ => Except.error "boom") (fun _ => false) 0
    { pool := poolOfTwo, fault_processor := enhancedFaultProcessor } ["a"]

/-- A pool whose endpoints are all unhealthy: endpoint 0 failed 5 times long
ago (at time 0, so its 300s cooldown has elapsed by time 1000), endpoint 1
failed 3 times recently (at time 900). -/
def allDownPool : PoolState :=
  { endpoint_health := [⟨false, 5, 0, 9⟩, ⟨false, 3, 900, 4⟩], current_endpoint_index := 0 }

/-! ## Helper lemmas -/

/-- If every dispatch attempt raises, `run_attempts` performs exactly `fuel`
calls and reports no success. -/
theorem run_attempts_all_fail (oracle : Nat → Except String ResultsMap)
    (hfail : ∀ k, ∃ e, oracle k = .error e) :
    ∀ fuel k le, (run_attempts oracle fuel k le).1 = none ∧
      (run_attempts oracle fuel k le).2.1 = fuel := by
  intro fuel
  induction fuel with
  | zero => intro k le; exact ⟨rfl, rfl⟩
  | succ n ih =>
    intro k le
    obtain ⟨e, he⟩ := hfail k
    have h := ih (k + 1) (some e)
    simp [run_attempts, he, h.1, h.2]

/-- With at least one attempt available, `run_attempts` performs at least one
call. -/
theorem run_attempts_pos (oracle : Nat → Except String ResultsMap) (fuel k : Nat)
    (le : Option String) : 0 < (run_attempts oracle (fuel + 1) k le).2.1 := by
  cases h : oracle k <;> simp [run_attempts, h]

/-- Every value stored by `initResults` is `none`. -/
theorem initResults_val (kws : List String) : ∀ q ∈ initResults kws, q.2 = none := by
  suffices h : ∀ (l : List String) (acc : ResultsMap), (∀ q ∈ acc, Prod.snd q = none) →
      ∀ q ∈ List.foldl
        (fun (m : ResultsMap) k => if m.any (fun p => p.1 == k) then m else m ++ [(k, none)])
        acc l,
        Prod.snd q = none by
    intro q hq
    exact h kws [] (by intro q hq; cases hq) q hq
  intro l
  induction l with
  | nil => intro acc hacc q hq; exact hacc q hq
  | cons x rest ih =>
    intro acc hacc q hq
    refine ih _ ?_ q hq
    by_cases hx : acc.any (fun p => p.1 == x) = true
    · simpa [hx] using hacc
    · simp only [Bool.not_eq_true] at hx
      simp only [hx]
      intro q hq
      rcases List.mem_append.mp hq with h1 | h1
      · exact hacc q h1
      · simp_all

/-- The keys of `initResults` are exactly the requested keywords. -/
theorem initResults_keys (kws : List String) (k : String) :
    k ∈ (initResults kws).map Prod.fst ↔ k ∈ kws := by
  suffices h : ∀ (l : List String) (acc : ResultsMap),
      (k ∈ (List.foldl
        (fun (m : ResultsMap) k => if m.any (fun p => p.1 == k) then m else m ++ [(k, none)])
        acc l).map
          Prod.fst) ↔ k ∈ acc.map Prod.fst ∨ k ∈ l by
    simpa [initResults] using h kws []
  intro l
  induction l with
  | nil => intro acc; simp
  | cons x rest ih =>
    intro acc
    by_cases hx : acc.any (fun p => p.1 == x) = true
    · rw [List.foldl_cons]
      simp only [hx, if_pos]
      rw [ih acc]
      obtain ⟨p, hp, hpx⟩ := List.any_eq_true.mp hx
      have hxk : p.1 = x := by simpa using hpx
      constructor
      · rintro (h | h)
        · exact Or.inl h
        · exact Or.inr (List.mem_cons_of_mem x h)
      · rintro (h | h)
        · exact Or.inl h
        · rcases List.mem_cons.mp h with rfl | h
          · exact Or.inl (by
              rw [← hxk]
              exact List.mem_map_of_mem Prod.fst hp)
          · exact Or.inr h
    · simp only [Bool.not_eq_true] at hx
      rw [List.foldl_cons]
      simp only [hx, Bool.false_eq_true, if_false]
      rw [ih (acc ++ [(x, none)])]
      simp only [List.map_append, List.mem_append, List.map_cons, List.map_nil,
        List.mem_singleton, List.mem_cons]
      tauto

/-! ## C3 -/

/-- C3: when the circuit breaker is closed and every dispatch attempt raises,
a batch run with `max_retries = 2` performs exactly 3 dispatch attempts
(1 initial + 2 retries) and returns a failed `BatchResult` whose results map
carries every keyword of the batch mapped to absent, with
`retry_count = max_retries = 2`. -/
theorem C3_retries_exhausted (p : FaultTolerantProcessor) (now : Int) (batch_id : Nat)
    (kws : List String) (oracle : Nat → Except String ResultsMap)
    (hopen : p.circuit_breaker_open = false) (hmr : p.max_retries = 2)
    (hfail : ∀ k, ∃ e, oracle k = .error e) :
    (process_batch_with_retry p now batch_id kws oracle).2.2 = 3 ∧
    (process_batch_with_retry p now batch_id kws oracle).1.success = false ∧
    (process_batch_with_retry p now batch_id kws oracle).1.retry_count = 2 ∧
    (process_batch_with_retry p now batch_id kws oracle).1.results = initResults kws ∧
    (∀ k ∈ kws,
      k ∈ ((process_batch_with_retry p now batch_id kws oracle).1.results.map Prod.fst)) ∧
    (∀ q ∈ (process_batch_with_retry p now batch_id kws oracle).1.results, q.2 = none) := by
  have hra := run_attempts_all_fail oracle hfail (p.max_retries + 1) 0 none
  rcases hres : run_attempts oracle (p.max_retries + 1) 0 none with ⟨r, calls, le⟩
  rw [hres] at hra
  obtain ⟨hr, hc⟩ := hra
  simp only at hr hc
  subst hr hc
  have hcond : (p.circuit_breaker_open && !should_close_circuit_breaker p now) = false := by
    simp [hopen]
  simp only [process_batch_with_retry, hcond, Bool.false_eq_true, if_false, hres]
  refine ⟨by omega, trivial, hmr, trivial, ?_, initResults_val kws⟩
  intro k hk
  exact (initResults_keys kws k).mpr hk

/-- Witness for C3 at a concrete input. -/
theorem C3_retries_exhausted_witness :
    (process_batch_with_retry enhancedFaultProcessor 0 1 ["a", "b"]
        (fun _ => Except.error "boom")).2.2 = 3 ∧
    (process_batch_with_retry enhancedFaultProcessor 0 1 ["a", "b"]
        (fun _ => Except.error "boom")).1.success = false ∧
    (process_batch_with_retry enhancedFaultProcessor 0 1 ["a", "b"]
        (fun _ => Except.error "boom")).1.retry_count = 2 ∧
    (process_batch_with_retry enhancedFaultProcessor 0 1 ["a", "b"]
        (fun _ => Except.error "boom")).1.results = initResults ["a", "b"] ∧
    "a" ∈ ((process_batch_with_retry enhancedFaultProcessor 0 1 ["a", "b"]
        (fun _ => Except.error "boom")).1.results.map Prod.fst) ∧
    "b" ∈ ((process_batch_with_retry enhancedFaultProcessor 0 1 ["a", "b"]
        (fun _ => Except.error "boom")).1.results.map Prod.fst) := by
  obtain ⟨h1, h2, h3, h4, h5, h6⟩ :=
    C3_retries_exhausted enhancedFaultProcessor 0 1 ["a", "b"] (fun _ => Except.error "boom")
      rfl rfl (fun _ => ⟨"boom", rfl⟩)
  exact ⟨h1, h2, h3, h4, h5 "a" (by simp), h5 "b" (by simp)⟩

/-! ## C10 -/

/-- C10: after every `update_stats` call, `total_batches = successful_batches
+ failed_batches` and `total_keywords = successful_keywords +
failed_keywords` are preserved for every kind of `BatchResult`, and neither
total ever decreases. -/
theorem C10_update_stats_invariant (p : FaultTolerantProcessor) (br : BatchResult)
    (h1 : p.stats.total_batches = p.stats.successful_batches + p.stats.failed_batches)
    (h2 : p.stats.total_keywords = p.stats.successful_keywords + p.stats.failed_keywords) :
    (update_stats p br).stats.total_batches =
        (update_stats p br).stats.successful_batches +
          (update_stats p br).stats.failed_batches ∧
    (update_stats p br).stats.total_keywords =
        (update_stats p br).stats.successful_keywords +
          (update_stats p br).stats.failed_keywords ∧
    p.stats.total_batches ≤ (update_stats p br).stats.total_batches ∧
    p.stats.total_keywords ≤ (update_stats p br).stats.total_keywords := by
  unfold update_stats
  by_cases hs : br.success = true <;> by_cases hr : br.retry_count > 0 <;>
    simp [hs, hr] <;> omega

/-- Witness for C10 at a concrete input. -/
theorem C10_update_stats_invariant_witness :
    (enhancedFaultProcessor.stats.total_batches =
        enhancedFaultProcessor.stats.successful_batches +
          enhancedFaultProcessor.stats.failed_batches) ∧
    (enhancedFaultProcessor.stats.total_keywords =
        enhancedFaultProcessor.stats.successful_keywords +
          enhancedFaultProcessor.stats.failed_keywords) ∧
    ((update_stats enhancedFaultProcessor sampleBatchResult).stats.total_batches =
        (update_stats enhancedFaultProcessor sampleBatchResult).stats.successful_batches +
          (update_stats enhancedFaultProcessor sampleBatchResult).stats.failed_batches ∧
      (update_stats enhancedFaultProcessor sampleBatchResult).stats.total_keywords =
        (update_stats enhancedFaultProcessor sampleBatchResult).stats.successful_keywords +
          (update_stats enhancedFaultProcessor sampleBatchResult).stats.failed_keywords ∧
      enhancedFaultProcessor.stats.total_batches ≤
        (update_stats enhancedFaultProcessor sampleBatchResult).stats.total_batches ∧
      enhancedFaultProcessor.stats.total_keywords ≤
        (update_stats enhancedFaultProcessor sampleBatchResult).stats.total_keywords) :=
  ⟨by decide, by decide,
    C10_update_stats_invariant enhancedFaultProcessor sampleBatchResult (by decide) (by decide)⟩

/-! ## C9 -/

/-- C9 (evidence of the code/comment divergence): with the pipeline's delay
configuration (`retry_delay_base = 5.0`, `retry_delay_max = 60.0`) and any
random draw `r ∈ [0, 1)`, the delay computed by `_calculate_retry_delay`
stays strictly inside ±10% of `d = min(base * 2^attempt, max)`: the code's
jitter factor is `0.2 * (r - 0.5) ∈ [-0.1, 0.1)`, not the ±20% stated by the
source comment and the spec. -/
theorem C9_jitter_ten_percent (p : FaultTolerantProcessor) (rc : Nat) (r : ℚ)
    (he : p.enable_exponential_backoff = true)
    (hbase : p.retry_delay_base = 5) (hmax : p.retry_delay_max = 60)
    (hr0 : 0 ≤ r) (hr1 : r < 1) :
    min (p.retry_delay_base * 2 ^ rc) p.retry_delay_max * (9/10)
        ≤ calculate_retry_delay p rc r ∧
    calculate_retry_delay p rc r
        < min (p.retry_delay_base * 2 ^ rc) p.retry_delay_max * (11/10) := by
  simp only [calculate_retry_delay, he, Bool.not_true, Bool.false_eq_true, if_false]
  have h2 : (1:ℚ) ≤ 2 ^ rc := one_le_pow₀ (by norm_num)
  have hd5 : (5:ℚ) ≤ min (p.retry_delay_base * 2 ^ rc) p.retry_delay_max := by
    rw [hbase, hmax]
    exact le_min (by nlinarith) (by norm_num)
  generalize hd : min (p.retry_delay_base * 2 ^ rc) p.retry_delay_max = d at hd5 ⊢
  have hfloor : (1/10 : ℚ) ≤ d + d * (1/5) * (r - 1/2) := by nlinarith
  rw [max_eq_right hfloor]
  constructor <;> nlinarith

/-- A body failing the schema test parses to the all-absent map. -/
theorem parse_response_not_matching (body : JValue) (kws : List String)
    (h : matches_expected_schema body = false) :
    parse_response body kws = initResults kws := by
  cases body with
  | obj fields =>
    simp only [parse_response]
    cases hf : lookupField fields "data" with
    | none => rfl
    | some v =>
      cases v with
      | arr items =>
        exfalso
        simp only [matches_expected_schema, hf] at h
        cases h
      | null => rfl
      | bool b => rfl
      | num n => rfl
      | str s => rfl
      | obj f2 => rfl
  | null => rfl
  | bool b => rfl
  | num n => rfl
  | str s => rfl
  | arr items => rfl

/-- `setKey` at a different key preserves entries. -/
theorem setKey_mem_of_ne (m : ResultsMap) (k kw : String) (v w : Option JValue)
    (hne : k ≠ kw) (h : (k, v) ∈ m) : (k, v) ∈ setKey m kw w := by
  unfold setKey
  have hmem := List.mem_map_of_mem
    (fun p : String × Option JValue => if p.1 == kw then (kw, w) else p) h
  simpa [beq_eq_false_iff_ne.mpr hne] using hmem

/-- A keyword set by no `data` entry keeps its `none` binding through the
item loop of `_parse_response`. -/
theorem parse_items_untouched (kws : List String) (k : String) :
    ∀ (items : List JValue) (acc : ResultsMap), (k, none) ∈ acc →
      (∀ it ∈ items, itemSetsKeyword kws it k = false) →
      (k, none) ∈ items.foldl (parseItem kws) acc := by
  intro items
  induction items with
  | nil => intro acc hacc _; exact hacc
  | cons it rest ih =>
    intro acc hacc hmiss
    refine ih (parseItem kws acc it) ?_ (fun x hx => hmiss x (List.mem_cons_of_mem it hx))
    have hit := hmiss it (List.mem_cons_self it rest)
    cases it with
    | obj ifields =>
      simp only [parseItem]
      cases hkw : lookupField ifields "keyword" with
      | none => exact hacc
      | some vkw =>
        cases vkw with
        | str kw =>
          cases hmet : lookupField ifields "metrics" with
          | none => exact hacc
          | some metrics =>
            simp only [itemSetsKeyword, hkw, hmet] at hit
            by_cases hcont : kws.contains kw = true
            · by_cases hval : is_valid_keyword_data metrics = true
              · have hne : kw ≠ k := by
                  intro hkk
                  rw [hkk] at hit hcont
                  simp [hval] at hit
                  exact hit (by simpa using hcont)
                simp only [hcont, if_true, hval]
                exact setKey_mem_of_ne acc k kw none (some metrics) (fun hk2 => hne hk2.symm) hacc
              · simp only [Bool.not_eq_true] at hval
                simp [hcont, hval, hacc]
            · have hcont2 : kw ∉ kws := by simpa using hcont
              simp [hcont2, hacc]
        | null => exact hacc
        | bool b => exact hacc
        | num n => exact hacc
        | arr xs => exact hacc
        | obj f2 => exact hacc
    | null => exact hacc
    | bool b => exact hacc
    | num n => exact hacc
    | str s => exact hacc
    | arr xs => exact hacc

/-- Every requested keyword is bound to `none` by `initResults`. -/
theorem initResults_mem (kws : List String) (k : String) (hk : k ∈ kws) :
    (k, none) ∈ initResults kws := by
  obtain ⟨p, hp, hfst⟩ := List.mem_map.mp ((initResults_keys kws k).mpr hk)
  have hv := initResults_val kws p hp
  obtain ⟨a, b⟩ := p
  simp only at hfst hv
  subst hfst hv
  exact hp

/-! ## C4 -/

/-- C4 counterexample: an HTTP-200 body that does not match the expected
schema (here a bare JSON array) does NOT produce a `ResponseParseError`:
`_send_request_to_endpoint` returns a successful result mapping the requested
keyword to absent. -/
theorem C4_counterexample :
    matches_expected_schema (JValue.arr []) = false ∧
    send_request_to_endpoint ["a"] (HttpResponse.status 200 (JValue.arr []) "") =
      Except.ok [("a", none)] :=
  ⟨rfl, rfl⟩

/-- C4 amended: a 200 response never fails with a parse error — the body is
always parsed into a successful per-keyword map; a body that does not match
the expected schema maps every requested keyword to absent; and within a
matching body, a requested keyword that no `data` entry sets (absent from
`data`, or present only with metrics failing the non-empty-object validation)
is mapped to absent. -/
theorem C4_parse_never_fails (kws : List String) (body : JValue) (k : String)
    (h0 : kws ≠ []) (hk : k ∈ kws)
    (hmiss : ∀ it ∈ dataItems body, itemSetsKeyword kws it k = false) :
    send_request_to_endpoint kws (HttpResponse.status 200 body "") =
      Except.ok (parse_response body kws) ∧
    (k, none) ∈ parse_response body kws ∧
    (matches_expected_schema body = false → parse_response body kws = initResults kws) := by
  refine ⟨?_, ?_, parse_response_not_matching body kws⟩
  · simp [send_request_to_endpoint, h0]
  · cases hm : matches_expected_schema body with
    | false => rw [parse_response_not_matching body kws hm]; exact initResults_mem kws k hk
    | true =>
      cases body with
      | obj fields =>
        simp only [parse_response]
        cases hf : lookupField fields "data" with
        | none => exact initResults_mem kws k hk
        | some v =>
          cases v with
          | arr items =>
            have hmiss2 : ∀ it ∈ items, itemSetsKeyword kws it k = false := by
              intro it hit
              refine hmiss it ?_
              simp [dataItems, hf, hit]
            exact parse_items_untouched kws k items (initResults kws)
              (initResults_mem kws k hk) hmiss2
          | null => exact initResults_mem kws k hk
          | bool b => exact initResults_mem kws k hk
          | num n => exact initResults_mem kws k hk
          | str s => exact initResults_mem kws k hk
          | obj f2 => exact initResults_mem kws k hk
      | null => exact initResults_mem kws k hk
      | bool b => exact initResults_mem kws k hk
      | num n => exact initResults_mem kws k hk
      | str s => exact initResults_mem kws k hk
      | arr items => exact initResults_mem kws k hk

/-- Witness for the amended C4 at a concrete input. -/
theorem C4_parse_never_fails_witness :
    send_request_to_endpoint ["a"] (HttpResponse.status 200 (JValue.num 3) "") =
      Except.ok (parse_response (JValue.num 3) ["a"]) ∧
    ("a", none) ∈ parse_response (JValue.num 3) ["a"] ∧
    (matches_expected_schema (JValue.num 3) = false →
      parse_response (JValue.num 3) ["a"] = initResults ["a"]) :=
  C4_parse_never_fails ["a"] (JValue.num 3) "a" (by simp) (by simp)
    (fun it hit => absurd hit (by simp [dataItems]))

/-! ## C8 -/

/-- C8 counterexample: with flush threshold 5 and 12 successfully enriched
keywords offered in one batch, each sink is invoked ONCE with all 12 items —
not twice with 5 items each — and the final flush has nothing left to
deliver (not 2 items). -/
theorem C8_counterexample :
    (streamBufferStep [] [] items12).2.2.map List.length = [12] ∧
    (streamBufferStep [] [] items12).2.1.map List.length = [12] ∧
    (streamBufferStep [] [] items12).1.2.length = 0 ∧
    (finalFlush (streamBufferStep [] [] items12).1.2).length = 0 := by
  refine ⟨by decide, by decide, by decide, by decide⟩

/-- C8 amended: with flush threshold 5 and 12 successful keywords offered in
one batch, each buffer reaches 12 and is flushed once, whole: each sink
receives a single call with all 12 items in offer order, both buffers are
cleared, and the final flush delivers nothing. -/
theorem C8_single_flush_of_twelve :
    streamBufferStep [] [] items12 = (([], []), ([enriched12], [enriched12])) ∧
    finalFlush ([] : List EnrichedItem) = [] ∧
    enriched12.length = 12 :=
  ⟨rfl, rfl, rfl⟩

/-- An out-of-range index is never healthy. -/
theorem healthyAt_out_of_range (health : List EndpointHealth) (c : Nat)
    (h : health.length ≤ c) : healthyAt health c = false := by
  unfold healthyAt
  rw [List.get?_eq_getElem?, List.getElem?_eq_none h]
  rfl

/-- The search loop of `_get_next_endpoint` stops at the first healthy
endpoint in cyclic order from the cursor, advancing the cursor past it. -/
theorem getNextLoop_found (health : List EndpointHealth) :
    ∀ (fuel c : Nat), c < health.length →
      (∃ m, m < fuel ∧ healthyAt health ((c + m) % health.length) = true) →
      ∃ m, m < fuel ∧ healthyAt health ((c + m) % health.length) = true ∧
        (∀ j, j < m → healthyAt health ((c + j) % health.length) = false) ∧
        getNextLoop health fuel c =
          Sum.inl ((c + m) % health.length,
            ((c + m) % health.length + 1) % health.length) := by
  intro fuel
  induction fuel with
  | zero =>
    intro c hc hex
    obtain ⟨m, hm, _⟩ := hex
    exact absurd hm (Nat.not_lt_zero m)
  | succ n ih =>
    intro c hc hex
    have hc0 : (c + 0) % health.length = c := by
      rw [Nat.add_zero]; exact Nat.mod_eq_of_lt hc
    cases hh : healthyAt health c with
    | true =>
      refine ⟨0, Nat.succ_pos n, ?_, ?_, ?_⟩
      · rw [hc0]; exact hh
      · intro j hj; exact absurd hj (Nat.not_lt_zero j)
      · have hcm : c % health.length = c := Nat.mod_eq_of_lt hc
        simp [getNextLoop, hh, hcm]
    | false =>
      obtain ⟨m, hm, hmh⟩ := hex
      have hlen : 0 < health.length := lt_of_le_of_lt (Nat.zero_le c) hc
      rcases m with _ | m2
      · rw [hc0, hh] at hmh; cases hmh
      · have hc1 : (c + 1) % health.length < health.length := Nat.mod_lt _ hlen
        have hstep : ∀ j, ((c + 1) % health.length + j) % health.length =
            (c + (j + 1)) % health.length := by
          intro j
          rw [Nat.mod_add_mod]
          congr 1
          omega
        have hex2 : ∃ m3, m3 < n ∧
            healthyAt health (((c + 1) % health.length + m3) % health.length) = true := by
          refine ⟨m2, by omega, ?_⟩
          rw [hstep m2]
          exact hmh
        obtain ⟨m3, hm3, hm3h, hm3prev, hm3loop⟩ := ih ((c + 1) % health.length) hc1 hex2
        refine ⟨m3 + 1, by omega, ?_, ?_, ?_⟩
        · rw [← hstep m3]; exact hm3h
        · intro j hj
          rcases j with _ | j2
          · rw [hc0]; exact hh
          · have hjp := hm3prev j2 (by omega)
            rw [hstep j2] at hjp
            exact hjp
        · have hin : getNextLoop health (n + 1) c =
              getNextLoop health n ((c + 1) % health.length) := by
            simp [getNextLoop, hh]
          rw [hin, hm3loop, hstep m3]

/-- When every endpoint is unhealthy, the search loop fails for every fuel
and cursor. -/
theorem getNextLoop_none (health : List EndpointHealth)
    (hall : ∀ j, j < health.length → healthyAt health j = false) :
    ∀ fuel c, ∃ c1, getNextLoop health fuel c = Sum.inr c1 := by
  have hall2 : ∀ j, healthyAt health j = false := by
    intro j
    by_cases hj : j < health.length
    · exact hall j hj
    · exact healthyAt_out_of_range health j (le_of_not_lt hj)
  intro fuel
  induction fuel with
  | zero => intro c; exact ⟨c, rfl⟩
  | succ n ih =>
    intro c
    obtain ⟨c1, h⟩ := ih ((c + 1) % health.length)
    exact ⟨c1, by simp [getNextLoop, hall2 c, h]⟩

/-- `argminFailures` attains the minimal failure count. -/
theorem argminFailures_le (health : List EndpointHealth) :
    ∀ j, j < health.length →
      failuresAt health (argminFailures health) ≤ failuresAt health j := by
  suffices h : ∀ (l : List Nat) (b : Nat),
      failuresAt health (l.foldl
        (fun best i => if failuresAt health i < failuresAt health best then i else best) b) ≤
          failuresAt health b ∧
      ∀ x ∈ l, failuresAt health (l.foldl
        (fun best i => if failuresAt health i < failuresAt health best then i else best) b) ≤
          failuresAt health x by
    intro j hj
    exact (h (List.range health.length) 0).2 j (List.mem_range.mpr hj)
  intro l
  induction l with
  | nil => intro b; exact ⟨le_refl _, by intro x hx; cases hx⟩
  | cons x rest ih =>
    intro b
    rw [List.foldl_cons]
    by_cases hlt : failuresAt health x < failuresAt health b
    · rw [if_pos hlt]
      obtain ⟨h1, h2⟩ := ih x
      refine ⟨le_trans h1 (le_of_lt hlt), ?_⟩
      intro y hy
      rcases List.mem_cons.mp hy with rfl | hy2
      · exact h1
      · exact h2 y hy2
    · rw [if_neg hlt]
      obtain ⟨h1, h2⟩ := ih b
      refine ⟨h1, ?_⟩
      intro y hy
      rcases List.mem_cons.mp hy with rfl | hy2
      · exact le_trans h1 (le_of_not_lt hlt)
      · exact h2 y hy2

/-! ## C5 -/

/-- C5 counterexample: both endpoints are unhealthy; endpoint 0's
`healthCheckInterval` cooldown (300s) has elapsed since its last failure
(time 0, now 1000) while endpoint 1's has not (time 900) — yet
`_get_next_endpoint` returns endpoint 1 (the fewest-failures fallback), marks
nothing provisionally healthy, and leaves the pool state unchanged, contrary
to the claimed half-open reactivation. -/
theorem C5_counterexample :
    allDownPool.endpoint_health.map (fun e => e.healthy) = [false, false] ∧
    allDownPool.endpoint_health.map (fun e => e.last_check) = [0, 900] ∧
    ((1000 : Int) - 0 > 300 ∧ ¬ ((1000 : Int) - 900 > 300)) ∧
    get_next_endpoint allDownPool = (1, allDownPool) := by
  refine ⟨by decide, by decide, ⟨by decide, by decide⟩, by decide⟩

/-- C5 amended: `_get_next_endpoint` never mutates any health flag; it
returns the first healthy endpoint in round-robin (cyclic) order from the
cursor, advancing the cursor past it; and when every endpoint is unhealthy it
returns the least index with the fewest `failures` — no cooldown-based
("half-open") reactivation exists. -/
theorem C5_get_next_endpoint (st : PoolState)
    (hc : st.current_endpoint_index < st.endpoint_health.length) :
    (get_next_endpoint st).2.endpoint_health = st.endpoint_health ∧
    ((∀ j, j < st.endpoint_health.length → healthyAt st.endpoint_health j = false) →
      (get_next_endpoint st).1 = argminFailures st.endpoint_health ∧
      ∀ j, j < st.endpoint_health.length →
        failuresAt st.endpoint_health (get_next_endpoint st).1 ≤
          failuresAt st.endpoint_health j) ∧
    ((∃ j, j < st.endpoint_health.length ∧ healthyAt st.endpoint_health j = true) →
      ∃ m, m < st.endpoint_health.length ∧
        (get_next_endpoint st).1 =
          (st.current_endpoint_index + m) % st.endpoint_health.length ∧
        healthyAt st.endpoint_health ((get_next_endpoint st).1) = true ∧
        (∀ j, j < m →
          healthyAt st.endpoint_health
            ((st.current_endpoint_index + j) % st.endpoint_health.length) = false) ∧
        (get_next_endpoint st).2.current_endpoint_index =
          ((get_next_endpoint st).1 + 1) % st.endpoint_health.length) := by
  refine ⟨?_, ?_, ?_⟩
  · unfold get_next_endpoint
    cases hgl : getNextLoop st.endpoint_health st.endpoint_health.length
        st.current_endpoint_index with
    | inl v => rfl
    | inr c => rfl
  · intro hall
    obtain ⟨c1, hnone⟩ := getNextLoop_none st.endpoint_health hall
      st.endpoint_health.length st.current_endpoint_index
    have hres : (get_next_endpoint st).1 = argminFailures st.endpoint_health := by
      unfold get_next_endpoint
      rw [hnone]
    refine ⟨hres, ?_⟩
    intro j hj
    rw [hres]
    exact argminFailures_le st.endpoint_health j hj
  · intro hex
    obtain ⟨j, hj, hjh⟩ := hex
    have hlen : 0 < st.endpoint_health.length := lt_of_le_of_lt (Nat.zero_le j) hj
    have hmod : (st.current_endpoint_index +
        (j + st.endpoint_health.length - st.current_endpoint_index) %
          st.endpoint_health.length) % st.endpoint_health.length = j := by
      rw [Nat.add_mod_mod]
      have harith : st.current_endpoint_index +
          (j + st.endpoint_health.length - st.current_endpoint_index) =
          j + st.endpoint_health.length := by omega
      rw [harith, Nat.add_mod_right, Nat.mod_eq_of_lt hj]
    have hpre : ∃ m, m < st.endpoint_health.length ∧
        healthyAt st.endpoint_health
          ((st.current_endpoint_index + m) % st.endpoint_health.length) = true := by
      refine ⟨(j + st.endpoint_health.length - st.current_endpoint_index) %
        st.endpoint_health.length, Nat.mod_lt _ hlen, ?_⟩
      rw [hmod]
      exact hjh
    obtain ⟨m, hm, hmh, hmprev, hmloop⟩ :=
      getNextLoop_found st.endpoint_health st.endpoint_health.length
        st.current_endpoint_index hc hpre
    have hfst : (get_next_endpoint st).1 =
        (st.current_endpoint_index + m) % st.endpoint_health.length := by
      unfold get_next_endpoint
      rw [hmloop]
    have hsnd : (get_next_endpoint st).2.current_endpoint_index =
        ((st.current_endpoint_index + m) % st.endpoint_health.length + 1) %
          st.endpoint_health.length := by
      unfold get_next_endpoint
      rw [hmloop]
    refine ⟨m, hm, hfst, ?_, hmprev, ?_⟩
    · rw [hfst]; exact hmh
    · rw [hsnd, hfst]

/-- Witness for the amended C5 at a concrete input. -/
theorem C5_get_next_endpoint_witness :
    (get_next_endpoint poolWithDown).2.endpoint_health = poolWithDown.endpoint_health :=
  (C5_get_next_endpoint poolWithDown (by decide)).1

/-- One overwrite-or-append step of `updateMap` adds exactly the updated
key to the key set. -/
theorem updateStep_keys (m : ResultsMap) (kv : String × Option JValue) (k : String) :
    (k ∈ ((if m.any (fun p => p.1 == kv.1) then
        m.map (fun p => if p.1 == kv.1 then kv else p)
      else m ++ [kv]).map Prod.fst)) ↔ k ∈ m.map Prod.fst ∨ k = kv.1 := by
  by_cases hany : m.any (fun p => p.1 == kv.1) = true
  · rw [if_pos hany]
    have hkeys : (m.map (fun p => if p.1 == kv.1 then kv else p)).map Prod.fst =
        m.map Prod.fst := by
      rw [List.map_map]
      apply List.map_congr_left
      intro p hp
      by_cases hp1 : (p.1 == kv.1) = true
      · simp only [Function.comp_apply, hp1, if_true]
        exact (eq_of_beq hp1).symm
      · simp only [Function.comp_apply, hp1]
        rw [if_neg]
        simp [hp1]
    rw [hkeys]
    obtain ⟨p, hp, hpeq⟩ := List.any_eq_true.mp hany
    have hkv : kv.1 ∈ m.map Prod.fst := by
      have h1 : p.1 = kv.1 := by simpa using hpeq
      rw [← h1]
      exact List.mem_map_of_mem Prod.fst hp
    constructor
    · exact Or.inl
    · rintro (h | rfl)
      · exact h
      · exact hkv
  · simp only [Bool.not_eq_true] at hany
    rw [hany]
    simp

/-- `results.update(upd)` unions the key sets. -/
theorem updateMap_keys (u : ResultsMap) : ∀ (m : ResultsMap) (k : String),
    (k ∈ (updateMap m u).map Prod.fst) ↔
      k ∈ m.map Prod.fst ∨ k ∈ u.map Prod.fst := by
  induction u with
  | nil => intro m k; simp [updateMap]
  | cons kv rest ih =>
    intro m k
    have hcons : updateMap m (kv :: rest) =
        updateMap (if m.any (fun p => p.1 == kv.1) then
            m.map (fun p => if p.1 == kv.1 then kv else p)
          else m ++ [kv]) rest := rfl
    rw [hcons, ih, updateStep_keys m kv k]
    simp only [List.map_cons, List.mem_cons]
    tauto

/-- Key-set characterisation of the pipeline batch loop: a keyword is a key
of the final map iff it was one initially or belongs to the results of a
merged trace record; merged records are exactly the successful non-empty
batches. -/
theorem runBatches_keys (oracle : Nat → Nat → Except String ResultsMap)
    (timeoutAt : Nat → Bool) (now : Int) :
    ∀ (batches : List (List String)) (i : Nat) (st : RunState) (results : ResultsMap)
      (k : String),
      ((k ∈ (runBatches oracle timeoutAt now batches i st results).1.map Prod.fst) ↔
        (k ∈ results.map Prod.fst ∨
          ∃ r ∈ (runBatches oracle timeoutAt now batches i st results).2.2,
            r.merged = true ∧ k ∈ r.result.results.map Prod.fst)) ∧
      (∀ r ∈ (runBatches oracle timeoutAt now batches i st results).2.2,
        r.merged = true → r.result.success = true) := by
  intro batches
  induction batches with
  | nil =>
    intro i st results k
    constructor
    · simp [runBatches]
    · intro r hr
      simp [runBatches] at hr
  | cons batch rest ih =>
    intro i st results k
    by_cases ht : timeoutAt i = true
    · constructor
      · simp [runBatches, ht]
      · intro r hr
        simp [runBatches, ht] at hr
    · have ht2 : timeoutAt i = false := by simpa using ht
      rcases hpr : process_batch_with_retry st.fault_processor now i batch (oracle i)
        with ⟨br, fp1, calls⟩
      by_cases hC : should_continue_processing (update_stats fp1 br) = true
      · by_cases hS : br.success = true
        · by_cases hE : br.results.isEmpty = true
          · -- successful but empty results: nothing merged
            rcases hq : runBatches oracle timeoutAt now rest (i + 1)
                { pool := (get_next_endpoint st.pool).2, fault_processor := update_stats fp1 br }
                results with ⟨res2, st2, tr2⟩
            have hrun : runBatches oracle timeoutAt now (batch :: rest) i st results =
                (res2, st2, ⟨br, calls, false⟩ :: tr2) := by
              simp [runBatches, ht2, hpr, hC, hS, hE, hq]
            have ihs := ih (i + 1)
              { pool := (get_next_endpoint st.pool).2, fault_processor := update_stats fp1 br }
              results k
            rw [hq] at ihs
            simp only at ihs
            constructor
            · rw [hrun]
              simp only
              rw [ihs.1]
              constructor
              · rintro (h | ⟨r, hr, hm, hk⟩)
                · exact Or.inl h
                · exact Or.inr ⟨r, List.mem_cons_of_mem _ hr, hm, hk⟩
              · rintro (h | ⟨r, hr, hm, hk⟩)
                · exact Or.inl h
                · rcases List.mem_cons.mp hr with rfl | hr2
                  · cases hm
                  · exact Or.inr ⟨r, hr2, hm, hk⟩
            · rw [hrun]
              intro r hr hm
              rcases List.mem_cons.mp hr with rfl | hr2
              · cases hm
              · exact ihs.2 r hr2 hm
          · -- successful non-empty results: merged
            rcases hq : runBatches oracle timeoutAt now rest (i + 1)
                { pool := (get_next_endpoint st.pool).2, fault_processor := update_stats fp1 br }
                (updateMap results br.results) with ⟨res2, st2, tr2⟩
            have hE2 : br.results.isEmpty = false := by simpa using hE
            have hrun : runBatches oracle timeoutAt now (batch :: rest) i st results =
                (res2, st2, ⟨br, calls, true⟩ :: tr2) := by
              simp [runBatches, ht2, hpr, hC, hS, hE2, hq]
            have ihs := ih (i + 1)
              { pool := (get_next_endpoint st.pool).2, fault_processor := update_stats fp1 br }
              (updateMap results br.results) k
            rw [hq] at ihs
            simp only at ihs
            constructor
            · rw [hrun]
              simp only
              rw [ihs.1, updateMap_keys br.results results k]
              constructor
              · rintro ((h | h) | ⟨r, hr, hm, hk⟩)
                · exact Or.inl h
                · exact Or.inr ⟨⟨br, calls, true⟩, List.mem_cons_self _ _, rfl, h⟩
                · exact Or.inr ⟨r, List.mem_cons_of_mem _ hr, hm, hk⟩
              · rintro (h | ⟨r, hr, hm, hk⟩)
                · exact Or.inl (Or.inl h)
                · rcases List.mem_cons.mp hr with rfl | hr2
                  · exact Or.inl (Or.inr hk)
                  · exact Or.inr ⟨r, hr2, hm, hk⟩
            · rw [hrun]
              intro r hr hm
              rcases List.mem_cons.mp hr with rfl | hr2
              · exact hS
              · exact ihs.2 r hr2 hm
        · -- failed batch: empty contribution, not merged
          have hS2 : br.success = false := by simpa using hS
          rcases hq : runBatches oracle timeoutAt now rest (i + 1)
              { pool := (get_next_endpoint st.pool).2, fault_processor := update_stats fp1 br }
              results with ⟨res2, st2, tr2⟩
          have hrun : runBatches oracle timeoutAt now (batch :: rest) i st results =
              (res2, st2, ⟨br, calls, false⟩ :: tr2) := by
            simp [runBatches, ht2, hpr, hC, hS2, hq]
          have ihs := ih (i + 1)
            { pool := (get_next_endpoint st.pool).2, fault_processor := update_stats fp1 br }
            results k
          rw [hq] at ihs
          simp only at ihs
          constructor
          · rw [hrun]
            simp only
            rw [ihs.1]
            constructor
            · rintro (h | ⟨r, hr, hm, hk⟩)
              · exact Or.inl h
              · exact Or.inr ⟨r, List.mem_cons_of_mem _ hr, hm, hk⟩
            · rintro (h | ⟨r, hr, hm, hk⟩)
              · exact Or.inl h
              · rcases List.mem_cons.mp hr with rfl | hr2
                · cases hm
                · exact Or.inr ⟨r, hr2, hm, hk⟩
          · rw [hrun]
            intro r hr hm
            rcases List.mem_cons.mp hr with rfl | hr2
            · cases hm
            · exact ihs.2 r hr2 hm
      · -- failure-rate stop: current batch dropped, loop ends
        have hC2 : should_continue_processing (update_stats fp1 br) = false := by
          simpa using hC
        have hrun : runBatches oracle timeoutAt now (batch :: rest) i st results =
            (results,
              { pool := (get_next_endpoint st.pool).2, fault_processor := update_stats fp1 br },
              [⟨br, calls, false⟩]) := by
          simp [runBatches, ht2, hpr, hC2]
        constructor
        · rw [hrun]
          simp
        · rw [hrun]
          intro r hr hm
          rcases List.mem_cons.mp hr with rfl | hr2
          · cases hm
          · cases hr2

/-! ## C1 -/

/-- C1 counterexample: with keyword set `{"a"}` and a dispatch that always
raises, `query_keywords_with_resilience` returns an EMPTY map — the keyword
of the failed batch is missing entirely, not mapped to absent — so the
returned key set does not equal the input keyword set. -/
theorem C1_counterexample :
    "a" ∈ (["a"] : List String) ∧ runOneFailing.1.map Prod.fst = [] :=
  ⟨by decide, by decide⟩

/-- C1 amended: the key set of the map returned by
`query_keywords_with_resilience` equals the union of the key sets of the
results of its merged batches (the successfully processed batches whose
results were folded into the map before any early exit); keywords of failed,
circuit-skipped or never-issued batches are absent from the map rather than
bound to `None`. -/
theorem C1_returned_keys (batch_size : Nat)
    (oracle : Nat → Nat → Except String ResultsMap) (timeoutAt : Nat → Bool) (now : Int)
    (st : RunState) (keywords : List String) (k : String) :
    ((k ∈ (query_keywords_with_resilience batch_size oracle timeoutAt now st
        keywords).1.map Prod.fst) ↔
      ∃ r ∈ (query_keywords_with_resilience batch_size oracle timeoutAt now st
        keywords).2.2, r.merged = true ∧ k ∈ r.result.results.map Prod.fst) ∧
    (∀ r ∈ (query_keywords_with_resilience batch_size oracle timeoutAt now st
        keywords).2.2, r.merged = true → r.result.success = true) := by
  have h := runBatches_keys oracle timeoutAt now (chunks batch_size keywords) 0 st [] k
  unfold query_keywords_with_resilience
  constructor
  · rw [h.1]
    simp
  · exact h.2

/-! ## C2 -/

/-- C2 counterexample: five consecutive failing singleton batches open the
circuit (threshold 5); the sixth batch attempt is short-circuited with the
circuit-open error and zero dispatch calls, BUT the orchestrator still selects
an endpoint for it — the round-robin cursor advances from 1 to 2 during the
circuit-open attempt, contrary to the claim's "selects no endpoint, and
mutates no endpoint ... state". -/
theorem C2_counterexample :
    runFiveFailing.2.1.fault_processor.circuit_breaker_open = true ∧
    runFiveFailing.2.1.fault_processor.consecutive_failures = 5 ∧
    (runSixFailing.2.2.map (fun r => (r.result.error, r.dispatch_calls))).getLast? =
      some (some "熔断器开启", 0) ∧
    runFiveFailing.2.1.pool.current_endpoint_index = 1 ∧
    runSixFailing.2.1.pool.current_endpoint_index = 2 := by
  refine ⟨by decide, by decide, by decide, by decide, by decide⟩

/-- C2 amended: while the circuit is open and the cooldown has not elapsed,
the runner short-circuits the batch: failed `BatchResult` with the
circuit-open error, empty results, `retry_count = 0`, zero dispatch calls,
and the processor (circuit, retry and stats state) returned unchanged; the
orchestrator however still selects an endpoint via the round-robin cursor
before invoking the runner. -/
theorem C2_circuit_open_short_circuit (p : FaultTolerantProcessor) (now : Int)
    (batch_id i : Nat) (kws batch : List String) (oracle : Nat → Except String ResultsMap)
    (oracle2 : Nat → Nat → Except String ResultsMap) (timeoutAt : Nat → Bool)
    (pool : PoolState) (results : ResultsMap)
    (h1 : p.circuit_breaker_open = true)
    (h2 : ¬ now - p.circuit_breaker_open_time > p.circuit_breaker_timeout)
    (h3 : timeoutAt i = false) :
    process_batch_with_retry p now batch_id kws oracle =
      ({ batch_id := batch_id, keywords := kws, success := false, results := []
       , error := some "熔断器开启" }, p, 0) ∧
    (runBatches oracle2 timeoutAt now [batch] i { pool := pool, fault_processor := p }
        results).2.1.pool = (get_next_endpoint pool).2 := by
  have hshort : ∀ (bid : Nat) (ks : List String) (orc : Nat → Except String ResultsMap),
      process_batch_with_retry p now bid ks orc =
        ({ batch_id := bid, keywords := ks, success := false, results := []
         , error := some "熔断器开启" }, p, 0) := by
    intro bid ks orc
    have hcl : should_close_circuit_breaker p now = false := by
      simp [should_close_circuit_breaker, h1, h2]
    simp [process_batch_with_retry, h1, hcl]
  refine ⟨hshort batch_id kws oracle, ?_⟩
  by_cases hC : should_continue_processing (update_stats p
      { batch_id := i, keywords := batch, success := false, results := []
      , error := some "熔断器开启" }) = true <;>
    simp [runBatches, h3, hshort, hC]

/-- Witness for the amended C2 at a concrete input. -/
theorem C2_circuit_open_short_circuit_witness :
    process_batch_with_retry openFaultProcessor 100 6 ["f"] (fun _ => Except.error "boom") =
      ({ batch_id := 6, keywords := ["f"], success := false, results := []
       , error := some "熔断器开启" }, openFaultProcessor, 0) ∧
    (runBatches (fun _ _ => Except.error "boom") (fun _ => false) 100 [["f"]] 5
        { pool := poolOfFour, fault_processor := openFaultProcessor } []).2.1.pool =
      (get_next_endpoint poolOfFour).2 :=
  C2_circuit_open_short_circuit openFaultProcessor 100 6 5 ["f"] ["f"]
    (fun _ => Except.error "boom") (fun _ _ => Except.error "boom") (fun _ => false)
    poolOfFour [] rfl (by decide) rfl

/-! ## C6 -/

/-- C6 counterexample: reporting a success on an endpoint previously marked
unhealthy resets its failure count and increments its request count, but does
NOT set `healthy` back to `true`, contrary to the claim's `healthy = true`. -/
theorem C6_counterexample :
    healthyAt poolWithDown.endpoint_health 0 = false ∧
    report_success poolWithDown 0 =
      { endpoint_health := [⟨false, 0, 50, 8⟩, freshEndpoint], current_endpoint_index := 0 } ∧
    healthyAt (report_success poolWithDown 0).endpoint_health 0 = false := by
  refine ⟨by decide, by decide, by decide⟩

/-- C6 amended: the success bookkeeping resets the endpoint's
`consecutiveFailures` to 0 and increments `requestsServed`, leaving its
`healthy` flag as it was; every other endpoint and the cursor are unchanged. -/
theorem C6_report_success (st : PoolState) (i j : Nat) (e : EndpointHealth)
    (h : st.endpoint_health.get? i = some e) (hj : j ≠ i) :
    (report_success st i).endpoint_health.get? i =
      some { e with failures := 0, requests := e.requests + 1 } ∧
    (report_success st i).endpoint_health.get? j = st.endpoint_health.get? j ∧
    (report_success st i).current_endpoint_index = st.current_endpoint_index := by
  have hi : i < st.endpoint_health.length := by
    by_contra hle
    rw [List.get?_eq_none.mpr (le_of_not_lt hle)] at h
    cases h
  unfold report_success
  rw [h]
  refine ⟨?_, ?_, rfl⟩
  · simp only [List.get?_eq_getElem?]
    exact List.getElem?_set_eq_of_lt _ (by simpa using hi)
  · simp only [List.get?_eq_getElem?]
    exact List.getElem?_set_ne (fun hij => hj hij.symm)

/-- Witness for the amended C6 at a concrete input. -/
theorem C6_report_success_witness :
    (report_success poolWithDown 0).endpoint_health.get? 0 =
      some { downEndpoint with failures := 0, requests := downEndpoint.requests + 1 } ∧
    (report_success poolWithDown 0).endpoint_health.get? 1 =
      poolWithDown.endpoint_health.get? 1 ∧
    (report_success poolWithDown 0).current_endpoint_index =
      poolWithDown.current_endpoint_index :=
  C6_report_success poolWithDown 0 1 downEndpoint (by decide) (by decide)

/-! ## C7 -/

/-- C7 counterexample: circuit open since time 0 with cooldown 300 and
threshold 5.  At time 301 a batch is attempted (cooldown elapsed), all 3
dispatch attempts fail; the open timestamp is NOT refreshed, so at time 302
the following batch is again attempted with 3 dispatch calls and a dispatch
error — it is not short-circuited with a `CircuitOpen` error and zero network
calls for a fresh cooldown period, contrary to the claim. -/
theorem C7_counterexample :
    openFaultProcessor.circuit_breaker_open = true ∧
    openFaultProcessor.circuit_breaker_open_time = 0 ∧
    openFaultProcessor.circuit_breaker_timeout = 300 ∧
    probeFail.2.2 = 3 ∧
    probeFail.2.1.circuit_breaker_open = true ∧
    probeFail.2.1.circuit_breaker_open_time = 0 ∧
    probeAfterFail.2.2 = 3 ∧
    probeAfterFail.1.error = some "boom" := by
  refine ⟨by decide, by decide, by decide, by decide, by decide, by decide, by decide, by decide⟩

/-- C7 amended: once the circuit is open and the cooldown has elapsed, the
next batch proceeds normally; a success resets `consecutiveFailures` to 0 and
closes the circuit, but a failure leaves the open flag set WITHOUT refreshing
the open timestamp, so the cooldown stays expired and every subsequent batch
also proceeds (performs at least one dispatch call) instead of being
short-circuited for a fresh cooldown period. -/
theorem C7_half_open_behaviour (p : FaultTolerantProcessor) (now now2 : Int)
    (id1 id2 : Nat) (kws1 kws2 : List String) (m : ResultsMap)
    (oracleS oracleF oracle2 : Nat → Except String ResultsMap)
    (h1 : p.circuit_breaker_open = true)
    (h2 : now - p.circuit_breaker_open_time > p.circuit_breaker_timeout)
    (h3 : now ≤ now2)
    (hS : oracleS 0 = Except.ok m)
    (hF : ∀ k, ∃ e, oracleF k = Except.error e) :
    process_batch_with_retry p now id1 kws1 oracleS =
      ({ batch_id := id1, keywords := kws1, success := true, results := m, retry_count := 0 },
        { p with consecutive_failures := 0, circuit_breaker_open := false }, 1) ∧
    (process_batch_with_retry p now id1 kws1 oracleF).2.2 = p.max_retries + 1 ∧
    (process_batch_with_retry p now id1 kws1 oracleF).2.1.circuit_breaker_open = true ∧
    (process_batch_with_retry p now id1 kws1 oracleF).2.1.circuit_breaker_open_time =
      p.circuit_breaker_open_time ∧
    (process_batch_with_retry p now id1 kws1 oracleF).2.1.consecutive_failures =
      p.consecutive_failures + 1 ∧
    0 < (process_batch_with_retry (process_batch_with_retry p now id1 kws1 oracleF).2.1
          now2 id2 kws2 oracle2).2.2 := by
  have hclose : should_close_circuit_breaker p now = true := by
    simp [should_close_circuit_breaker, h1, h2]
  have hcond : (p.circuit_breaker_open && !should_close_circuit_breaker p now) = false := by
    simp [hclose]
  have hrs : run_attempts oracleS (p.max_retries + 1) 0 none = (some (m, 0), 1, none) := by
    simp [run_attempts, hS]
  have hra := run_attempts_all_fail oracleF hF (p.max_retries + 1) 0 none
  rcases hres : run_attempts oracleF (p.max_retries + 1) 0 none with ⟨r, calls, le⟩
  rw [hres] at hra
  obtain ⟨hr, hc⟩ := hra
  simp only at hr hc
  subst hr hc
  have hu : update_circuit_breaker p false now =
      { p with consecutive_failures := p.consecutive_failures + 1 } := by
    simp [update_circuit_breaker, h1]
  have hq : (process_batch_with_retry p now id1 kws1 oracleF).2.1 =
      { p with consecutive_failures := p.consecutive_failures + 1
             , failed_batches := p.failed_batches ++
                 [{ batch_id := id1, keywords := kws1, success := false
                  , results := initResults kws1, error := le
                  , retry_count := p.max_retries }] } := by
    simp [process_batch_with_retry, hcond, hres, hu]
  refine ⟨?_, ?_, ?_, ?_, ?_, ?_⟩
  · simp [process_batch_with_retry, hcond, hrs, update_circuit_breaker]
  · simp [process_batch_with_retry, hcond, hres]
  · rw [hq]; exact h1
  · rw [hq]
  · rw [hq]
  · rw [hq]
    have hclose2 : should_close_circuit_breaker
        ({ p with consecutive_failures := p.consecutive_failures + 1
                , failed_batches := p.failed_batches ++
                    [{ batch_id := id1, keywords := kws1, success := false
                     , results := initResults kws1, error := le
                     , retry_count := p.max_retries }] } : FaultTolerantProcessor) now2 = true := by
      simp only [should_close_circuit_breaker, h1, Bool.true_and]
      rw [decide_eq_true_eq]
      omega
    rcases hq2 : run_attempts oracle2 (p.max_retries + 1) 0 none with ⟨r2, c2, l2⟩
    have hpos := run_attempts_pos oracle2 p.max_retries 0 none
    rw [hq2] at hpos
    simp only at hpos
    rcases r2 with _ | ⟨rr, kk⟩ <;>
      simp [process_batch_with_retry, hclose2, hq2, hpos]

/-- Witness for the amended C7 at a concrete input. -/
theorem C7_half_open_behaviour_witness :
    process_batch_with_retry openFaultProcessor 301 1 ["a"] (fun _ => Except.ok []) =
      ({ batch_id := 1, keywords := ["a"], success := true, results := [], retry_count := 0 },
        { openFaultProcessor with consecutive_failures := 0, circuit_breaker_open := false },
        1) ∧
    probeFail.2.2 = openFaultProcessor.max_retries + 1 ∧
    probeFail.2.1.circuit_breaker_open = true ∧
    probeFail.2.1.circuit_breaker_open_time = openFaultProcessor.circuit_breaker_open_time ∧
    probeFail.2.1.consecutive_failures = openFaultProcessor.consecutive_failures + 1 ∧
    0 < probeAfterFail.2.2 :=
  C7_half_open_behaviour openFaultProcessor 301 302 1 2 ["a"] ["b"] []
    (fun _ => Except.ok []) (fun _ => Except.error "boom") (fun _ => Except.error "boom")
    rfl (by decide) (by decide) rfl (fun _ => ⟨"boom", rfl⟩)

/-- Witness for C9 at a concrete input. -/
theorem C9_jitter_ten_percent_witness :
    min (enhancedFaultProcessor.retry_delay_base * 2 ^ 0)
          enhancedFaultProcessor.retry_delay_max * (9/10)
        ≤ calculate_retry_delay enhancedFaultProcessor 0 0 ∧
    calculate_retry_delay enhancedFaultProcessor 0 0
        < min (enhancedFaultProcessor.retry_delay_base * 2 ^ 0)
            enhancedFaultProcessor.retry_delay_max * (11/10) :=
  C9_jitter_ten_percent enhancedFaultProcessor 0 0 rfl rfl rfl (le_refl 0) zero_lt_one

end Sitemap
